import Mathlib

/-!
Verification of the Bluesky mass-block tool (block_followers.py, blocklist.py).

Shallow embedding conventions:
* Time is modelled in whole milliseconds as `Nat`.  The Python constants
  `CREATES_PER_HOUR = 1500`, `DELAY_BETWEEN_CREATES = 3600/1500 s = 2.4 s`,
  `INITIAL_BACKOFF = 30 s` become 1500, 2400 ms and 30000 ms; an hour is
  3600000 ms.  Sleeps advance the clock by exactly the slept amount and
  network calls are instantaneous (the adversarially fastest execution,
  which is the worst case for every rate-bound proved below).
* The upstream service is an oracle.  For `create_record` the oracle maps an
  attempt to `ApiResp.ok` or `ApiResp.err msg`; the code classifies `msg` by
  the same substring tests the Python source performs.
* DIDs, handles and error messages are `String`s, as in the source.
* Audit-only fields of the persisted dict (`target_did`, `target_handle`,
  `list_uri`, `started_at`, `last_updated`) are omitted: no claim mentions
  them and no control flow depends on them.
* Persistence (`BatchState.save`) is modelled by copying the in-memory data
  to a `disk` shadow field.
-/

/-- Rate-limit constants from block_followers.py, in milliseconds. -/
def CREATES_PER_HOUR : Nat := 1500

/-- One hour in milliseconds (`timedelta(hours=1)`). -/
def MS_PER_HOUR : Nat := 3600000

/-- `DELAY_BETWEEN_CREATES = 3600 / CREATES_PER_HOUR` seconds, i.e. 2400 ms. -/
def DELAY_BETWEEN_CREATES_MS : Nat := MS_PER_HOUR / CREATES_PER_HOUR

/-- `MAX_RETRIES = 5`. -/
def MAX_RETRIES : Nat := 5

/-- `INITIAL_BACKOFF = 30.0` seconds, i.e. 30000 ms. -/
def INITIAL_BACKOFF_MS : Nat := 30000

/-- Does the character list `hay` start with `needle`?  (Helper for the
substring tests the Python source performs with `in`.) -/
def charsStartWith : List Char → List Char → Bool
  | _, [] => true
  | [], _ :: _ => false
  | h :: hs, n :: ns => h == n && charsStartWith hs ns

/-- Python's `needle in hay` on strings, on the underlying character lists. -/
def containsSub : List Char → List Char → Bool
  | [], needle => needle.isEmpty
  | h :: t, needle => charsStartWith (h :: t) needle || containsSub t needle

/-- ASCII lower-casing of one character (model of `str.lower` per character;
the needles the source tests against are pure ASCII). -/
def lowChar (c : Char) : Char :=
  if c.isUpper then Char.ofNat (c.toNat + 32) else c

/-- Model of Python's `str.lower()` on the character list. -/
def lowerChars (l : List Char) : List Char := l.map lowChar

/-- `is_rate_limit_error` from block_followers.py: lower-case the message and
look for any of the substrings "429", "rate", "too many", "ratelimit". -/
def isRateLimitError (msg : String) : Bool :=
  let s := lowerChars msg.toList
  containsSub s "429".toList || containsSub s "rate".toList ||
    containsSub s "too many".toList || containsSub s "ratelimit".toList

/-- The duplicate test in `add_to_blocklist` (block_followers.py line 287):
"duplicate record" or "already exists" in the lower-cased message. -/
def isDuplicateError (msg : String) : Bool :=
  containsSub (lowerChars msg.toList) "duplicate record".toList ||
    containsSub (lowerChars msg.toList) "already exists".toList

/-- Response of one `create_record` call: success, or an `AtProtocolError`
carrying the message string the source classifies. -/
inductive ApiResp where
  | ok : ApiResp
  | err (msg : String) : ApiResp
deriving DecidableEq, Repr

/-- A follower/interactor profile: `did` and `handle` strings. -/
structure Profile where
  did : String
  handle : String
deriving DecidableEq, Repr

/-- The persisted `BatchState.data` dict of block_followers.py (audit-only
string fields omitted, see the header comment).  `followers` is the fixed
candidate list, `processed` the ids already attempted. -/
structure StateData where
  followers : List String
  processed : List String
  added : Nat
  skipped : Nat
  failed : Nat
  hourlyCount : Nat
  hourStarted : Nat
deriving DecidableEq, Repr

/-- Whole-machine simulation state: in-memory data, the saved copy on disk,
the clock, and the chronological log of issued create requests
(did, time-of-request). -/
structure SimState where
  data : StateData
  disk : Option StateData
  now : Nat
  requests : List (String × Nat)
deriving DecidableEq, Repr

/-- `BatchState.save`. -/
def saveState (st : SimState) : SimState := { st with disk := some st.data }

/-- `BatchState.get_remaining`: followers not yet processed. -/
def getRemaining (d : StateData) : List String :=
  d.followers.filter (fun did => !(d.processed.contains did))

/-- `BatchState.mark_processed`: append the did and bump the matching
counter; any status other than "added"/"skipped" counts as failed. -/
def markProcessed (d : StateData) (did : String) (status : String) : StateData :=
  let d1 := { d with processed := d.processed ++ [did] }
  if status == "added" then { d1 with added := d1.added + 1 }
  else if status == "skipped" then { d1 with skipped := d1.skipped + 1 }
  else { d1 with failed := d1.failed + 1 }

/-- `BatchState.increment_hourly`. -/
def incrementHourly (d : StateData) : StateData :=
  { d with hourlyCount := d.hourlyCount + 1 }

/-- `BatchState.reset_hourly_if_needed` at clock value `now` (the model keeps
`hourStarted` always set, as the orchestrator initialises it before the run). -/
def resetHourlyIfNeeded (now : Nat) (d : StateData) : StateData :=
  if d.hourStarted + MS_PER_HOUR ≤ now then
    { d with hourlyCount := 0, hourStarted := now }
  else d

/-- `BatchState.wait_for_next_hour`: sleep until `hour_started + 1h`, then
reset the counter, restart the window and save.  If the window has already
expired nothing happens (the source computes a non-positive wait). -/
def waitForNextHour (st : SimState) : SimState :=
  let nextHour := st.data.hourStarted + MS_PER_HOUR
  if st.now < nextHour then
    saveState { st with
      now := nextHour,
      data := { st.data with hourlyCount := 0, hourStarted := nextHour } }
  else st

/-- The retry loop of `add_to_blocklist`.  `fuel = MAX_RETRIES - retries`
pending iterations of `while retries < MAX_RETRIES`.  Returns the status
string, the final clock, and the times of the create requests issued.
On a rate-limit error the source increments `retries`, returns "failed" when
it reaches `MAX_RETRIES` (fuel exhausted), and otherwise sleeps
`INITIAL_BACKOFF * 2 ^ (retries - 1)` seconds before retrying. -/
def addToBlocklistLoop (oracle : Nat → ApiResp) :
    Nat → Nat → Nat → String × Nat × List Nat
  | _, now, 0 => ("failed", now, [])
  | retries, now, fuel + 1 =>
    match oracle retries with
    | ApiResp.ok => ("added", now, [now])
    | ApiResp.err msg =>
      if isDuplicateError msg then ("skipped", now, [now])
      else if isRateLimitError msg then
        if fuel = 0 then ("failed", now, [now])
        else
          let wait := INITIAL_BACKOFF_MS * 2 ^ retries
          let rest := addToBlocklistLoop oracle (retries + 1) (now + wait) fuel
          (rest.1, rest.2.1, now :: rest.2.2)
      else ("failed", now, [now])

/-- `add_to_blocklist` for one did: run the retry loop from `retries = 0`. -/
def addToBlocklist (oracle : Nat → ApiResp) (now : Nat) : String × Nat × List Nat :=
  addToBlocklistLoop oracle 0 now MAX_RETRIES

/-- The hourly-quota gate at the top of the loop body of
`run_batch_process`: `can_proceed()` (which itself runs
`reset_hourly_if_needed`), and on refusal the save-then-wait of the source. -/
def quotaGate (st : SimState) : SimState :=
  let d1 := resetHourlyIfNeeded st.now st.data
  let st1 : SimState := { st with data := d1 }
  if d1.hourlyCount < CREATES_PER_HOUR then st1
  else waitForNextHour (saveState st1)

/-- One iteration of the loop body of `run_batch_process`: hourly-quota
check (with the save-then-wait of the source), self-skip, pacing sleep,
`add_to_blocklist`, `mark_processed`, `increment_hourly`, and the
save-every-10 flush. -/
def processOne (oracle : String → Nat → ApiResp) (selfDid : String)
    (st : SimState) (did : String) : SimState :=
  let st2 := quotaGate st
  if did == selfDid then
    saveState { st2 with data := markProcessed st2.data did "skipped" }
  else
    let st3 : SimState := { st2 with now := st2.now + DELAY_BETWEEN_CREATES_MS }
    let r := addToBlocklist (oracle did) st3.now
    let st4 : SimState := { st3 with
      now := r.2.1,
      requests := st3.requests ++ r.2.2.map (fun t => (did, t)),
      data := incrementHourly (markProcessed st3.data did r.1) }
    if st4.data.processed.length % 10 == 0 then saveState st4 else st4

/-- The `for did in remaining` loop of `run_batch_process`. -/
def runBatchList (oracle : String → Nat → ApiResp) (selfDid : String) :
    List String → SimState → SimState
  | [], st => st
  | did :: rest, st => runBatchList oracle selfDid rest (processOne oracle selfDid st did)

/-- `run_batch_process`: iterate over `get_remaining()`, then the final save. -/
def runBatchProcess (oracle : String → Nat → ApiResp) (selfDid : String)
    (st : SimState) : SimState :=
  saveState (runBatchList oracle selfDid (getRemaining st.data) st)

/-- `run_batch_process` interrupted by Ctrl+C after `k` candidates: the
KeyboardInterrupt handler saves the state and calls `sys.exit(0)`.  Returns
the final machine state and the process exit status. -/
def runBatchInterrupted (oracle : String → Nat → ApiResp) (selfDid : String)
    (k : Nat) (st : SimState) : SimState × Nat :=
  let st' := runBatchList oracle selfDid ((getRemaining st.data).take k) st
  (saveState st', 0)

/-- Fresh batch state as initialised by `add_followers_to_blocklist`
(`hour_started = now`, counters zero, then an initial `save`). -/
def freshBatchState (followers : List String) (t0 : Nat) : SimState :=
  let d : StateData :=
    { followers := followers, processed := [], added := 0, skipped := 0,
      failed := 0, hourlyCount := 0, hourStarted := t0 }
  { data := d, disk := some d, now := t0, requests := [] }

/-- What `BatchState.load` finds at the state-file path, by the outcome of
`open` + `json.load` on it: absent; present but failing JSON parsing
(raises `json.JSONDecodeError`); present but unreadable (raises `IOError`);
present but not valid UTF-8, so that decoding inside `json.load` raises
`UnicodeDecodeError` — a `ValueError` that is neither a `JSONDecodeError`
nor an `IOError`; or present and valid. -/
inductive FileContent where
  | missing : FileContent
  | corruptJson (msg : String) : FileContent
  | ioError (msg : String) : FileContent
  | invalidUtf8 (msg : String) : FileContent
  | valid (d : StateData) : FileContent
deriving DecidableEq, Repr

/-- `BatchState.load`: `Except.ok` is a normal return of
(result, data-after-load, diagnostic); `Except.error` is an exception
propagating out of `load` to the caller.  A missing file returns False; a
file raising `json.JSONDecodeError` or `IOError` is caught by the handler
at block_followers.py line 54, a warning is printed and False is returned;
a file raising `UnicodeDecodeError` (non-UTF-8 bytes) matches neither
caught type, so the exception propagates; a valid file replaces `data` and
returns True. -/
def loadState (init : StateData) :
    FileContent → Except String (Bool × StateData × Option String)
  | FileContent.missing => Except.ok (false, init, none)
  | FileContent.corruptJson msg =>
    Except.ok (false, init, some ("Warning: Could not load state file: " ++ msg))
  | FileContent.ioError msg =>
    Except.ok (false, init, some ("Warning: Could not load state file: " ++ msg))
  | FileContent.invalidUtf8 msg => Except.error msg
  | FileContent.valid d => Except.ok (true, d, none)

/-- One page response of `get_followers`. -/
inductive FetchResp where
  | page (followers : List Profile) (cursor : Option Nat) : FetchResp
  | err (msg : String) : FetchResp
deriving Repr

/-- The pagination loop of `fetch_all_followers`.  The oracle maps the index
of the network call to its response; `fuel` bounds the number of calls (the
Python loop is unbounded; every claim below uses it on inputs that terminate
within the supplied fuel).  Arguments: fuel, call index, retries, accumulator. -/
def fetchAllLoop (oracle : Nat → FetchResp) :
    Nat → Nat → Nat → List Profile → List Profile
  | 0, _, _, acc => acc
  | fuel + 1, i, retries, acc =>
    match oracle i with
    | FetchResp.page fs cursor =>
      let acc := acc ++ fs
      match cursor with
      | none => acc
      | some _ => fetchAllLoop oracle fuel (i + 1) 0 acc
    | FetchResp.err msg =>
      if isRateLimitError msg then
        if retries + 1 ≥ MAX_RETRIES then acc
        else fetchAllLoop oracle fuel (i + 1) (retries + 1) acc
      else acc

/-- `fetch_all_followers`: note the source performs no deduplication. -/
def fetchAllFollowers (oracle : Nat → FetchResp) (fuel : Nat) : List Profile :=
  fetchAllLoop oracle fuel 0 0 []

/-- Python dict assignment `m[k] = v` on an insertion-ordered association
list: an existing key keeps its position but its value is overwritten, a new
key is appended. -/
def dictInsert (m : List (String × Profile)) (k : String) (v : Profile) :
    List (String × Profile) :=
  if m.any (fun p => p.1 == k) then
    m.map (fun p => if p.1 == k then (k, v) else p)
  else m ++ [(k, v)]

/-- The dict comprehension of blocklist.py line 126:
`interactors = {user.did: user for user in all_liker_profiles + all_reposters}`. -/
def buildInteractors (users : List Profile) : List (String × Profile) :=
  users.foldl (fun m u => dictInsert m u.did u) []

/-- Counters and request log of the mutation loop of
`add_interactors_to_blocklist`. -/
structure InterState where
  addedCount : Nat
  skippedCount : Nat
  failedCount : Nat
  requests : List (String × Nat)
deriving DecidableEq, Repr

/-- One iteration of the `for did, user_profile in interactors.items()` loop
of blocklist.py.  The self did is skipped with `continue` (no counter is
touched); otherwise a create request is issued at the current clock value
`now` (the loop contains no sleeps, so the clock never advances) and the
outcome is classified: success counts as added, an error containing the
case-sensitive text "duplicate record" as skipped, anything else as failed. -/
def interactorStep (oracle : String → ApiResp) (selfDid : String) (now : Nat)
    (st : InterState) (entry : String × Profile) : InterState :=
  if entry.1 == selfDid then st
  else
    match oracle entry.1 with
    | ApiResp.ok =>
      { st with addedCount := st.addedCount + 1,
                requests := st.requests ++ [(entry.1, now)] }
    | ApiResp.err msg =>
      let st1 := { st with requests := st.requests ++ [(entry.1, now)] }
      if containsSub msg.toList "duplicate record".toList then
        { st1 with skippedCount := st1.skippedCount + 1 }
      else { st1 with failedCount := st1.failedCount + 1 }

/-- The mutation loop of `add_interactors_to_blocklist` over the
deduplicated interactor dict built from `users`. -/
def addInteractorsLoop (oracle : String → ApiResp) (selfDid : String)
    (now : Nat) (users : List Profile) : InterState :=
  (buildInteractors users).foldl (interactorStep oracle selfDid now)
    ⟨0, 0, 0, []⟩

/-- Number of create requests whose timestamp falls in the half-open
one-hour window starting at `a`. -/
def countInWindow (ts : List Nat) (a : Nat) : Nat :=
  (ts.filter (fun t => decide (a ≤ t) && decide (t < a + MS_PER_HOUR))).length

/-- Spec-side comparison definition (refinement target for the dedup claims):
keys in first-seen order, as the spec's "deduplicated by subject-id" reads. -/
def firstSeenKeys (l : List String) : List String :=
  l.foldl (fun acc k => if acc.contains k then acc else acc ++ [k]) []

/-- The counter/tally invariant of the spec: the redundant counters equal
the tally of `processed`, and `processed` is a subset of the candidates. -/
def TallyInv (d : StateData) : Prop :=
  d.added + d.skipped + d.failed = d.processed.length ∧
  ∀ x ∈ d.processed, x ∈ d.followers

/-- Invariant of the request log: every logged request is in the past, and
consecutive requests are at least one pacing interval apart. -/
def ReqInv (st : SimState) : Prop :=
  (∀ p ∈ st.requests, p.2 ≤ st.now) ∧
  st.requests.Pairwise (fun p q => p.2 + DELAY_BETWEEN_CREATES_MS ≤ q.2)

/-- Oracle whose create calls always succeed. -/
def oracleAllOk : String → ApiResp := fun _ => ApiResp.ok

/-- Oracle that rate-limits the first five attempts and would succeed on the
sixth (the concrete scenario of the retry-exhaustion claim). -/
def rateLimitOracle : Nat → ApiResp :=
  fun n => if n < 5 then ApiResp.err "429 Too Many Requests" else ApiResp.ok

/-- A did made of `i` letters, so that distinct indices give distinct dids. -/
def repDid (i : Nat) : String := String.mk (List.replicate i 'a')

/-- 1501 distinct interactor profiles: one more than the hourly quota. -/
def manyUsers : List Profile := (List.range 1501).map (fun i => ⟨repDid i, repDid i⟩)

/-- Follower pagination returning the same did on two successive pages. -/
def twoPageDupOracle : Nat → FetchResp :=
  fun i => if i = 0 then FetchResp.page [⟨"a", "h1"⟩] (some 1)
           else FetchResp.page [⟨"a", "h2"⟩] none

/-! ### Helper lemmas -/

theorem charsStartWith_map (f : Char → Char) :
    ∀ (hay needle : List Char), charsStartWith hay needle = true →
      charsStartWith (hay.map f) (needle.map f) = true := by
  intro hay needle
  induction needle generalizing hay with
  | nil => intro _; cases hay <;> rfl
  | cons c cs ih =>
    cases hay with
    | nil => intro h; exact absurd h (by simp [charsStartWith])
    | cons a as =>
      intro h
      simp only [charsStartWith, Bool.and_eq_true, beq_iff_eq] at h
      simp only [List.map_cons, charsStartWith, Bool.and_eq_true, beq_iff_eq]
      exact ⟨congrArg f h.1, ih as h.2⟩

theorem containsSub_map (f : Char → Char) :
    ∀ (hay needle : List Char), containsSub hay needle = true →
      containsSub (hay.map f) (needle.map f) = true := by
  intro hay needle
  induction hay with
  | nil =>
    intro h
    simp only [containsSub, List.isEmpty_iff] at h
    subst h
    rfl
  | cons a as ih =>
    intro h
    simp only [containsSub, Bool.or_eq_true] at h
    simp only [List.map_cons, containsSub, Bool.or_eq_true]
    rcases h with h | h
    · exact Or.inl (by simpa using charsStartWith_map f (a :: as) needle h)
    · exact Or.inr (ih h)

theorem isDuplicateError_of_sub (msg : String)
    (h : containsSub msg.toList "duplicate record".toList = true) :
    isDuplicateError msg = true := by
  have hmap := containsSub_map lowChar msg.toList "duplicate record".toList h
  have hfix : ("duplicate record".toList).map lowChar = "duplicate record".toList := by
    decide
  rw [hfix] at hmap
  simp only [isDuplicateError, lowerChars, Bool.or_eq_true]
  exact Or.inl hmap

/-! ### C6: retry exhaustion -/

/-- C6 (confirmed).  With MAX_RETRIES = 5 and an upstream that rate-limits
the first five create attempts and would succeed on the sixth,
`add_to_blocklist` returns "failed" after exactly five issued requests; the
sixth attempt, although it would succeed, is never made. -/
theorem retry_exhaustion :
    (addToBlocklist rateLimitOracle 0).1 = "failed" ∧
    (addToBlocklist rateLimitOracle 0).2.2.length = 5 ∧
    rateLimitOracle 5 = ApiResp.ok ∧
    (runBatchProcess (fun _ => rateLimitOracle) "me"
      (freshBatchState ["d"] 0)).data.failed = 1 := by
  decide

/-! ### C9: load tolerance -/

/-- C9 counterexample.  The handler at block_followers.py line 54 catches
only `json.JSONDecodeError` and `IOError`.  A state file that exists but
holds invalid UTF-8 bytes makes decoding inside `json.load` raise
`UnicodeDecodeError`, which is neither caught type: `load` raises to the
orchestrator, refuting the claim that for every filesystem state a corrupt
(unparseable) file never raises. -/
theorem load_raises_cex :
    loadState (freshBatchState [] 0).data
      (FileContent.invalidUtf8 "UnicodeDecodeError: invalid start byte")
      = Except.error "UnicodeDecodeError: invalid start byte" := rfl

/-- C9 amended.  `BatchState.load` returns False (no batch in progress) for
a missing state file; for an existing file whose load raises
`json.JSONDecodeError` (unparseable JSON) or `IOError` (unreadable) it
returns False with a diagnostic instead of raising; but the except clause
catches only those two types, so an existing file whose bytes are not
valid UTF-8 makes `json.load` raise `UnicodeDecodeError`, which propagates
to the orchestrator. -/
theorem load_tolerance_amended (init : StateData) (msg : String) (d : StateData) :
    loadState init FileContent.missing = Except.ok (false, init, none) ∧
    loadState init (FileContent.corruptJson msg)
      = Except.ok (false, init,
          some ("Warning: Could not load state file: " ++ msg)) ∧
    loadState init (FileContent.ioError msg)
      = Except.ok (false, init,
          some ("Warning: Could not load state file: " ++ msg)) ∧
    loadState init (FileContent.invalidUtf8 msg) = Except.error msg ∧
    loadState init (FileContent.valid d) = Except.ok (true, d, none) :=
  ⟨rfl, rfl, rfl, rfl, rfl⟩

/-! ### Dictionary (interactor dedup) lemmas -/

theorem beq_symm_str (a b : String) : (a == b) = (b == a) := by
  by_cases h : a = b
  · subst h; rfl
  · have h2 : ¬b = a := fun hh => h hh.symm
    simp [h, h2]

theorem any_fst_eq_contains (m : List (String × Profile)) (k : String) :
    (m.any (fun p => p.1 == k)) = ((m.map Prod.fst).contains k) := by
  induction m with
  | nil => rfl
  | cons p rest ih =>
    simp only [List.any_cons, List.map_cons, List.contains_cons, ih,
      beq_symm_str p.1 k]

theorem dictInsert_keys (m : List (String × Profile)) (k : String) (v : Profile) :
    (dictInsert m k v).map Prod.fst =
      if (m.map Prod.fst).contains k then m.map Prod.fst
      else m.map Prod.fst ++ [k] := by
  rw [dictInsert, any_fst_eq_contains]
  by_cases h : ((m.map Prod.fst).contains k) = true
  · rw [if_pos h, if_pos h, List.map_map]
    apply List.map_congr_left
    intro p _
    simp only [Function.comp_apply]
    by_cases hp : (p.1 == k) = true
    · rw [if_pos hp]
      exact (eq_of_beq hp).symm
    · rw [if_neg hp]
  · rw [if_neg h, if_neg h, List.map_append]
    rfl

theorem dictInsert_keys_nodup (m : List (String × Profile)) (k : String)
    (v : Profile) (h : (m.map Prod.fst).Nodup) :
    ((dictInsert m k v).map Prod.fst).Nodup := by
  rw [dictInsert_keys]
  by_cases hc : ((m.map Prod.fst).contains k) = true
  · rw [if_pos hc]; exact h
  · rw [if_neg hc]
    refine h.append (List.nodup_singleton k) ?_
    intro x hx hxk
    simp only [List.mem_singleton] at hxk
    subst hxk
    apply hc
    rw [List.contains_eq_any_beq]
    exact List.any_eq_true.2 ⟨x, hx, by simp⟩

theorem buildInteractors_aux_nodup (users : List Profile) :
    ∀ acc : List (String × Profile), ((acc.map Prod.fst).Nodup) →
      (((users.foldl (fun m u => dictInsert m u.did u) acc).map Prod.fst).Nodup) := by
  induction users with
  | nil => intro acc h; exact h
  | cons u rest ih =>
    intro acc h
    exact ih (dictInsert acc u.did u) (dictInsert_keys_nodup acc u.did u h)

theorem buildInteractors_keys_nodup (users : List Profile) :
    ((buildInteractors users).map Prod.fst).Nodup :=
  buildInteractors_aux_nodup users [] List.nodup_nil

theorem buildInteractors_append_singleton (l : List Profile) (u : Profile) :
    buildInteractors (l ++ [u]) = dictInsert (buildInteractors l) u.did u := by
  simp [buildInteractors, List.foldl_append]

theorem firstSeenKeys_append_singleton (l : List String) (k : String) :
    firstSeenKeys (l ++ [k]) =
      if (firstSeenKeys l).contains k then firstSeenKeys l
      else firstSeenKeys l ++ [k] := by
  simp [firstSeenKeys, List.foldl_append]

theorem buildInteractors_keys_eq (users : List Profile) :
    (buildInteractors users).map Prod.fst = firstSeenKeys (users.map Profile.did) := by
  induction users using List.reverseRecOn with
  | nil => rfl
  | append_singleton l u ih =>
    rw [buildInteractors_append_singleton, dictInsert_keys, ih, List.map_append,
      List.map_singleton, firstSeenKeys_append_singleton]

theorem buildInteractors_last_label (users : List Profile) :
    ∀ e ∈ buildInteractors users,
      (users.filter (fun x => x.did == e.1)).getLast? = some e.2 := by
  induction users using List.reverseRecOn with
  | nil => intro e he; exact absurd he (by simp [buildInteractors])
  | append_singleton l u ih =>
    intro e he
    rw [buildInteractors_append_singleton, dictInsert] at he
    by_cases hc : ((buildInteractors l).any (fun p => p.1 == u.did)) = true
    · rw [if_pos hc] at he
      rcases List.mem_map.1 he with ⟨p, hp, hpe⟩
      by_cases hpk : (p.1 == u.did) = true
      · rw [if_pos hpk] at hpe
        subst hpe
        rw [List.filter_append]
        have hu : (Profile.did u == u.did) = true := by simp
        simp only [List.filter_cons, hu, if_true, List.filter_nil]
        exact List.getLast?_concat _
      · rw [if_neg hpk] at hpe
        subst hpe
        rw [List.filter_append]
        have hne : (Profile.did u == p.1) = false := by
          have : ¬p.1 = u.did := by simpa using hpk
          simp only [beq_eq_false_iff_ne, ne_eq]
          exact fun hh => this hh.symm
        simp only [List.filter_cons, hne, List.filter_nil, List.append_nil,
          Bool.false_eq_true, if_false]
        exact ih p hp
    · rw [if_neg hc] at he
      rcases List.mem_append.1 he with he | he
      · have hne : (Profile.did u == e.1) = false := by
          by_cases hq : u.did = e.1
          · exact absurd
              (List.any_eq_true.2 ⟨e, he, by simp [hq]⟩) hc
          · simpa [beq_eq_false_iff_ne] using hq
        rw [List.filter_append]
        simp only [List.filter_cons, hne, List.filter_nil, List.append_nil,
          Bool.false_eq_true, if_false]
        exact ih e he
      · simp only [List.mem_singleton] at he
        subst he
        rw [List.filter_append]
        have hu : (Profile.did u == u.did) = true := by simp
        simp only [List.filter_cons, hu, if_true, List.filter_nil]
        exact List.getLast?_concat _

/-- The request log of the interactor mutation loop: exactly one create
request, timestamped `now`, per non-self dict entry, in order, whatever the
upstream answers. -/
theorem interactorFold_requests (oracle : String → ApiResp) (selfDid : String)
    (now : Nat) :
    ∀ (entries : List (String × Profile)) (st : InterState),
      (entries.foldl (interactorStep oracle selfDid now) st).requests =
        st.requests ++
          (entries.filter (fun e => !(e.1 == selfDid))).map (fun e => (e.1, now)) := by
  intro entries
  induction entries with
  | nil => intro st; simp
  | cons e rest ih =>
    intro st
    rw [List.foldl_cons, ih]
    by_cases hs : (e.1 == selfDid) = true
    · have hstep : interactorStep oracle selfDid now st e = st := by
        rw [interactorStep, if_pos hs]
      rw [hstep, List.filter_cons]
      simp [hs]
    · have hstep : (interactorStep oracle selfDid now st e).requests
          = st.requests ++ [(e.1, now)] := by
        rw [interactorStep, if_neg hs]
        cases oracle e.1 with
        | ok => rfl
        | err msg =>
          by_cases hd : (containsSub msg.toList "duplicate record".toList) = true
          · simp only [hd, if_true]
          · simp only [hd, Bool.false_eq_true, if_false]
      rw [hstep, List.filter_cons]
      simp [hs]

/-- On a duplicate-free input the interactor dict is just the list of
(did, profile) pairs in order. -/
theorem foldl_dictInsert_nodup (users : List Profile) :
    ∀ acc : List (String × Profile),
      (users.map Profile.did).Nodup →
      (∀ k ∈ acc.map Prod.fst, k ∉ users.map Profile.did) →
      users.foldl (fun m u => dictInsert m u.did u) acc
        = acc ++ users.map (fun u => (u.did, u)) := by
  induction users with
  | nil => intro acc _ _; simp
  | cons u rest ih =>
    intro acc hnd hdisj
    rw [List.foldl_cons]
    have hany : (acc.any (fun p => p.1 == u.did)) = false := by
      cases hany : acc.any (fun p => p.1 == u.did) with
      | false => rfl
      | true =>
        rcases List.any_eq_true.1 hany with ⟨p, hp, hpk⟩
        have h1 : p.1 ∈ acc.map Prod.fst := List.mem_map_of_mem _ hp
        have h2 := hdisj p.1 h1
        rw [eq_of_beq hpk] at h2
        exact absurd (by simp) h2
    have hins : dictInsert acc u.did u = acc ++ [(u.did, u)] := by
      rw [dictInsert, hany]
      rfl
    rw [hins, ih (acc ++ [(u.did, u)]) (by simpa using hnd.sublist (by simp)) ?_]
    · rw [List.append_assoc]
      rfl
    · intro k hk
      rw [List.map_append] at hk
      rcases List.mem_append.1 hk with hk | hk
      · have := hdisj k hk
        intro hmem
        exact this (by simp [hmem])
      · simp only [List.map_cons, List.map_nil, List.mem_singleton] at hk
        subst hk
        intro hmem
        rw [List.map_cons, List.nodup_cons] at hnd
        exact hnd.1 hmem

/-- `buildInteractors` on a duplicate-free did list. -/
theorem buildInteractors_of_nodup (users : List Profile)
    (h : (users.map Profile.did).Nodup) :
    buildInteractors users = users.map (fun u => (u.did, u)) := by
  simpa [buildInteractors] using foldl_dictInsert_nodup users [] h (by simp)

theorem repDid_injective : Function.Injective repDid := by
  intro i j h
  have hdata : List.replicate i 'a' = List.replicate j 'a' := congrArg String.data h
  simpa using congrArg List.length hdata

theorem manyUsers_did_nodup : (manyUsers.map Profile.did).Nodup := by
  rw [manyUsers, List.map_map]
  exact List.Nodup.map (fun a b hh => repDid_injective hh) (List.nodup_range 1501)

theorem repDid_ne_me (i : Nat) : (repDid i == "me") = false := by
  simp only [beq_eq_false_iff_ne, ne_eq]
  intro h
  have hdata : List.replicate i 'a' = "me".data := congrArg String.data h
  have h2 : i = 2 := by
    have hl := congrArg List.length hdata
    rw [List.length_replicate] at hl
    rw [hl]
    decide
  subst h2
  exact absurd hdata (by decide)

/-! ### C1: quota discipline -/

/-- C1 counterexample.  The claim quantifies over every execution of the
batch mutation phase, including the interactor phase of blocklist.py — whose
mutation loop has no pacing sleep and no hourly accounting.  Blocking the
1501 distinct interactors `manyUsers` (none of them the acting identity,
every create succeeding) issues 1501 create requests at one instant, so the
hour window starting at that instant contains 1501 > 1500 = CREATES_PER_HOUR
mutating calls: the claim as stated is false. -/
theorem quota_violation_interactor_phase :
    CREATES_PER_HOUR <
      countInWindow
        (((addInteractorsLoop oracleAllOk "me" 0 manyUsers).requests).map Prod.snd)
        0 := by
  have hreq : (addInteractorsLoop oracleAllOk "me" 0 manyUsers).requests
      = (manyUsers.map (fun u => (u.did, u))).map
          (fun e : String × Profile => (e.1, (0 : Nat))) := by
    rw [addInteractorsLoop, buildInteractors_of_nodup manyUsers manyUsers_did_nodup,
      interactorFold_requests]
    rw [List.filter_eq_self.2 ?_]
    · simp
    · intro e hm
      rcases List.mem_map.1 hm with ⟨u, hu, rfl⟩
      rcases List.mem_map.1 hu with ⟨i, _, rfl⟩
      simp [repDid_ne_me i]
  have htimes :
      ((addInteractorsLoop oracleAllOk "me" 0 manyUsers).requests).map Prod.snd
        = List.replicate 1501 (0 : Nat) := by
    rw [hreq, List.map_map, List.map_map]
    show manyUsers.map (fun _ => (0 : Nat)) = List.replicate 1501 (0 : Nat)
    rw [List.map_const']
    have : manyUsers.length = 1501 := by
      rw [manyUsers, List.length_map, List.length_range]
    rw [this]
  rw [htimes, countInWindow]
  rw [List.filter_replicate_of_pos (by decide)]
  rw [List.length_replicate]
  decide

/-- Bounds on the retry loop: the clock never goes backwards, every issued
request lies between entry and exit times, and — because every retry is
preceded by a backoff sleep of at least `INITIAL_BACKOFF` — consecutive
requests are at least one pacing interval apart. -/
theorem addToBlocklistLoop_bounds (oracle : Nat → ApiResp) :
    ∀ (fuel retries now : Nat),
      now ≤ (addToBlocklistLoop oracle retries now fuel).2.1 ∧
      (∀ t ∈ (addToBlocklistLoop oracle retries now fuel).2.2,
        now ≤ t ∧ t ≤ (addToBlocklistLoop oracle retries now fuel).2.1) ∧
      (addToBlocklistLoop oracle retries now fuel).2.2.Pairwise
        (fun a b => a + DELAY_BETWEEN_CREATES_MS ≤ b) := by
  intro fuel
  induction fuel with
  | zero =>
    intro retries now
    refine ⟨le_refl _, ?_, ?_⟩ <;> simp [addToBlocklistLoop]
  | succ f ih =>
    intro retries now
    simp only [addToBlocklistLoop]
    cases horacle : oracle retries with
    | ok =>
      refine ⟨le_refl _, ?_, ?_⟩ <;> simp
    | err msg =>
      by_cases hdup : isDuplicateError msg = true
      · simp only [hdup, if_true]
        refine ⟨le_refl _, ?_, ?_⟩ <;> simp
      · simp only [hdup, Bool.false_eq_true, if_false]
        by_cases hrate : isRateLimitError msg = true
        · simp only [hrate, if_true]
          by_cases hf : f = 0
          · simp only [hf, if_true]
            refine ⟨le_refl _, ?_, ?_⟩ <;> simp
          · simp only [hf, if_false]
            obtain ⟨h1, h2, h3⟩ := ih (retries + 1) (now + INITIAL_BACKOFF_MS * 2 ^ retries)
            have hwait : DELAY_BETWEEN_CREATES_MS ≤ INITIAL_BACKOFF_MS * 2 ^ retries := by
              calc DELAY_BETWEEN_CREATES_MS ≤ INITIAL_BACKOFF_MS := by decide
                _ = INITIAL_BACKOFF_MS * 1 := (Nat.mul_one _).symm
                _ ≤ INITIAL_BACKOFF_MS * 2 ^ retries :=
                    Nat.mul_le_mul_left _ (Nat.one_le_two_pow)
            have hnow : now ≤ now + INITIAL_BACKOFF_MS * 2 ^ retries := Nat.le_add_right _ _
            refine ⟨le_trans hnow h1, ?_, ?_⟩
            · intro t ht
              rcases List.mem_cons.1 ht with rfl | ht
              · exact ⟨le_refl _, le_trans hnow h1⟩
              · exact ⟨le_trans hnow (h2 t ht).1, (h2 t ht).2⟩
            · refine List.Pairwise.cons ?_ h3
              intro t ht
              calc now + DELAY_BETWEEN_CREATES_MS
                  ≤ now + INITIAL_BACKOFF_MS * 2 ^ retries := Nat.add_le_add_left hwait _
                _ ≤ t := (h2 t ht).1
        · simp only [hrate, Bool.false_eq_true, if_false]
          refine ⟨le_refl _, ?_, ?_⟩ <;> simp

theorem saveIf_requests (c : Prop) [Decidable c] (x : SimState) :
    (if c then saveState x else x).requests = x.requests := by
  split <;> rfl

theorem saveIf_now (c : Prop) [Decidable c] (x : SimState) :
    (if c then saveState x else x).now = x.now := by
  split <;> rfl

theorem saveIf_data (c : Prop) [Decidable c] (x : SimState) :
    (if c then saveState x else x).data = x.data := by
  split <;> rfl

theorem quotaGate_requests (st : SimState) : (quotaGate st).requests = st.requests := by
  unfold quotaGate waitForNextHour saveState resetHourlyIfNeeded
  dsimp only
  split_ifs <;> rfl

theorem quotaGate_now_mono (st : SimState) : st.now ≤ (quotaGate st).now := by
  unfold quotaGate waitForNextHour saveState resetHourlyIfNeeded
  dsimp only
  split_ifs <;> simp <;> omega

theorem processOne_self_eq (oracle : String → Nat → ApiResp) (selfDid : String)
    (st : SimState) (did : String) (h : (did == selfDid) = true) :
    processOne oracle selfDid st did =
      saveState { quotaGate st with
        data := markProcessed (quotaGate st).data did "skipped" } := by
  unfold processOne
  rw [if_pos h]

theorem processOne_other_eq (oracle : String → Nat → ApiResp) (selfDid : String)
    (st : SimState) (did : String) (h : (did == selfDid) = false) :
    processOne oracle selfDid st did =
      (let st3 : SimState :=
        { quotaGate st with now := (quotaGate st).now + DELAY_BETWEEN_CREATES_MS }
       let r := addToBlocklist (oracle did) st3.now
       let st4 : SimState := { st3 with
         now := r.2.1,
         requests := st3.requests ++ r.2.2.map (fun t => (did, t)),
         data := incrementHourly (markProcessed st3.data did r.1) }
       if st4.data.processed.length % 10 == 0 then saveState st4 else st4) := by
  unfold processOne
  rw [if_neg (by simp [h])]

theorem processOne_requests (oracle : String → Nat → ApiResp) (selfDid : String)
    (st : SimState) (did : String) :
    (processOne oracle selfDid st did).requests =
      if (did == selfDid) = true then st.requests
      else st.requests ++
        ((addToBlocklist (oracle did) ((quotaGate st).now + DELAY_BETWEEN_CREATES_MS)).2.2).map
          (fun t => (did, t)) := by
  by_cases h : (did == selfDid) = true
  · rw [if_pos h, processOne_self_eq oracle selfDid st did h]
    exact quotaGate_requests st
  · have hf : (did == selfDid) = false := by simpa using h
    rw [if_neg h, processOne_other_eq oracle selfDid st did hf]
    dsimp only
    rw [saveIf_requests]
    show (quotaGate st).requests ++ _ = _
    rw [quotaGate_requests]

theorem processOne_now (oracle : String → Nat → ApiResp) (selfDid : String)
    (st : SimState) (did : String) :
    (processOne oracle selfDid st did).now =
      if (did == selfDid) = true then (quotaGate st).now
      else (addToBlocklist (oracle did)
        ((quotaGate st).now + DELAY_BETWEEN_CREATES_MS)).2.1 := by
  by_cases h : (did == selfDid) = true
  · rw [if_pos h, processOne_self_eq oracle selfDid st did h]
    rfl
  · have hf : (did == selfDid) = false := by simpa using h
    rw [if_neg h, processOne_other_eq oracle selfDid st did hf]
    dsimp only
    rw [saveIf_now]

theorem processOne_data (oracle : String → Nat → ApiResp) (selfDid : String)
    (st : SimState) (did : String) :
    (processOne oracle selfDid st did).data =
      if (did == selfDid) = true then markProcessed (quotaGate st).data did "skipped"
      else incrementHourly (markProcessed (quotaGate st).data did
        (addToBlocklist (oracle did)
          ((quotaGate st).now + DELAY_BETWEEN_CREATES_MS)).1) := by
  by_cases h : (did == selfDid) = true
  · rw [if_pos h, processOne_self_eq oracle selfDid st did h]
    rfl
  · have hf : (did == selfDid) = false := by simpa using h
    rw [if_neg h, processOne_other_eq oracle selfDid st did hf]
    dsimp only
    rw [saveIf_data]

theorem quotaGate_data_core (st : SimState) :
    (quotaGate st).data.followers = st.data.followers ∧
    (quotaGate st).data.processed = st.data.processed ∧
    (quotaGate st).data.added = st.data.added ∧
    (quotaGate st).data.skipped = st.data.skipped ∧
    (quotaGate st).data.failed = st.data.failed := by
  unfold quotaGate waitForNextHour saveState resetHourlyIfNeeded
  dsimp only
  split_ifs <;> simp

theorem markProcessed_processed (d : StateData) (did status : String) :
    (markProcessed d did status).processed = d.processed ++ [did] := by
  unfold markProcessed
  dsimp only
  split_ifs <;> rfl

theorem markProcessed_followers (d : StateData) (did status : String) :
    (markProcessed d did status).followers = d.followers := by
  unfold markProcessed
  dsimp only
  split_ifs <;> rfl

theorem markProcessed_sum (d : StateData) (did status : String) :
    (markProcessed d did status).added + (markProcessed d did status).skipped
        + (markProcessed d did status).failed
      = d.added + d.skipped + d.failed + 1 := by
  unfold markProcessed
  dsimp only
  split_ifs <;> dsimp only <;> omega

theorem markProcessed_skipped_mono (d : StateData) (did status : String) :
    d.skipped ≤ (markProcessed d did status).skipped := by
  unfold markProcessed
  dsimp only
  split_ifs <;> dsimp only <;> omega

theorem markProcessed_skipped_self (d : StateData) (did : String) :
    (markProcessed d did "skipped").skipped = d.skipped + 1 := rfl

theorem processOne_reqinv (oracle : String → Nat → ApiResp) (selfDid : String)
    (st : SimState) (did : String) (h : ReqInv st) :
    ReqInv (processOne oracle selfDid st did) ∧
      st.now ≤ (processOne oracle selfDid st did).now := by
  obtain ⟨hpast, hpair⟩ := h
  have hgate := quotaGate_now_mono st
  by_cases hs : (did == selfDid) = true
  · constructor
    · constructor
      · intro p hp2
        rw [processOne_requests, if_pos hs] at hp2
        rw [processOne_now, if_pos hs]
        exact le_trans (hpast p hp2) hgate
      · rw [processOne_requests, if_pos hs]
        exact hpair
    · rw [processOne_now, if_pos hs]
      exact hgate
  · have hb :
        (quotaGate st).now + DELAY_BETWEEN_CREATES_MS ≤
          (addToBlocklist (oracle did)
            ((quotaGate st).now + DELAY_BETWEEN_CREATES_MS)).2.1 ∧
        (∀ t ∈ (addToBlocklist (oracle did)
            ((quotaGate st).now + DELAY_BETWEEN_CREATES_MS)).2.2,
          (quotaGate st).now + DELAY_BETWEEN_CREATES_MS ≤ t ∧
            t ≤ (addToBlocklist (oracle did)
              ((quotaGate st).now + DELAY_BETWEEN_CREATES_MS)).2.1) ∧
        (addToBlocklist (oracle did)
            ((quotaGate st).now + DELAY_BETWEEN_CREATES_MS)).2.2.Pairwise
          (fun a b => a + DELAY_BETWEEN_CREATES_MS ≤ b) :=
      addToBlocklistLoop_bounds (oracle did) MAX_RETRIES 0
        ((quotaGate st).now + DELAY_BETWEEN_CREATES_MS)
    obtain ⟨hfin, hmem, hpw⟩ := hb
    constructor
    · constructor
      · intro p hp2
        rw [processOne_requests, if_neg hs] at hp2
        rw [processOne_now, if_neg hs]
        rcases List.mem_append.1 hp2 with hp2 | hp2
        · exact le_trans (hpast p hp2)
            (le_trans hgate (le_trans (Nat.le_add_right _ _) hfin))
        · rcases List.mem_map.1 hp2 with ⟨t, ht, rfl⟩
          exact (hmem t ht).2
      · rw [processOne_requests, if_neg hs, List.pairwise_append]
        refine ⟨hpair, List.Pairwise.map _ (fun a b hab => hab) hpw, ?_⟩
        intro p hpold q hqnew
        rcases List.mem_map.1 hqnew with ⟨t, ht, rfl⟩
        have h1 : p.2 ≤ (quotaGate st).now := le_trans (hpast p hpold) hgate
        have h2 : (quotaGate st).now + DELAY_BETWEEN_CREATES_MS ≤ t := (hmem t ht).1
        show p.2 + DELAY_BETWEEN_CREATES_MS ≤ t
        omega
    · rw [processOne_now, if_neg hs]
      exact le_trans hgate (le_trans (Nat.le_add_right _ _) hfin)

theorem runBatchList_reqinv (oracle : String → Nat → ApiResp) (selfDid : String) :
    ∀ (dids : List String) (st : SimState), ReqInv st →
      ReqInv (runBatchList oracle selfDid dids st) ∧
        st.now ≤ (runBatchList oracle selfDid dids st).now := by
  intro dids
  induction dids with
  | nil => intro st h; exact ⟨h, le_refl _⟩
  | cons did rest ih =>
    intro st h
    rw [runBatchList]
    obtain ⟨hstep, hnow⟩ := processOne_reqinv oracle selfDid st did h
    obtain ⟨h1, h2⟩ := ih (processOne oracle selfDid st did) hstep
    exact ⟨h1, le_trans hnow h2⟩

/-- Counting lemma: a list whose consecutive elements are at least `d` apart
has at most `k` elements in any half-open window of length `k * d`. -/
theorem separated_count_le (d : Nat) (hd : 0 < d) :
    ∀ (ts : List Nat), ts.Pairwise (fun a b => a + d ≤ b) →
      ∀ (a k : Nat),
        (ts.filter (fun t => decide (a ≤ t) && decide (t < a + k * d))).length ≤ k := by
  intro ts
  induction ts with
  | nil => intro _ a k; simp
  | cons x rest ih =>
    intro hpw a k
    rw [List.pairwise_cons] at hpw
    obtain ⟨hx, hrest⟩ := hpw
    rw [List.filter_cons]
    by_cases hpx : (decide (a ≤ x) && decide (x < a + k * d)) = true
    · rw [if_pos hpx]
      simp only [Bool.and_eq_true, decide_eq_true_eq] at hpx
      obtain ⟨hax, hxk⟩ := hpx
      cases k with
      | zero =>
        simp only [Nat.zero_mul, Nat.add_zero] at hxk
        omega
      | succ k' =>
        have hmono :
            (rest.filter (fun t => decide (a ≤ t)
                && decide (t < a + (k' + 1) * d))).length
              ≤ (rest.filter (fun t => decide (a + d ≤ t)
                && decide (t < a + d + k' * d))).length := by
          rw [← List.countP_eq_length_filter, ← List.countP_eq_length_filter]
          apply List.countP_mono_left
          intro y hy hpy
          simp only [Bool.and_eq_true, decide_eq_true_eq] at hpy ⊢
          obtain ⟨hay, hyk⟩ := hpy
          have hxy : x + d ≤ y := hx y hy
          constructor
          · omega
          · calc y < a + (k' + 1) * d := hyk
              _ = a + d + k' * d := by ring
        have hih := ih hrest (a + d) k'
        rw [List.length_cons]
        omega
    · rw [if_neg hpx]
      exact ih hrest a k

/-- C1 amended.  In the follower batch phase every create request —
initial attempt or retry — is preceded by a sleep of at least
`DELAY_BETWEEN_CREATES` = windowDuration / quotaPerWindow, so starting from
any batch state with an empty issued-request log (every fresh or resumed
process starts with one), any half-open window of one hour contains at most
CREATES_PER_HOUR = 1500 of the issued mutating create requests, for every
oracle, every candidate list and every clock value.  The interactor phase
of blocklist.py has no such bound (see the counterexample). -/
theorem quota_discipline_follower_phase (oracle : String → Nat → ApiResp)
    (selfDid : String) (st : SimState) (a : Nat) (h : st.requests = []) :
    countInWindow
      (((runBatchProcess oracle selfDid st).requests).map Prod.snd) a
      ≤ CREATES_PER_HOUR := by
  have hinv : ReqInv st := by
    constructor
    · intro p hp
      rw [h] at hp
      exact absurd hp (List.not_mem_nil p)
    · rw [h]
      exact List.Pairwise.nil
  obtain ⟨⟨_, hpw⟩, _⟩ := runBatchList_reqinv oracle selfDid
    (getRemaining st.data) st hinv
  have hreq : (runBatchProcess oracle selfDid st).requests
      = (runBatchList oracle selfDid (getRemaining st.data) st).requests := rfl
  rw [countInWindow, hreq]
  have hpw2 : (((runBatchList oracle selfDid
      (getRemaining st.data) st).requests).map Prod.snd).Pairwise
        (fun a b => a + DELAY_BETWEEN_CREATES_MS ≤ b) :=
    List.Pairwise.map _ (fun p q hpq => hpq) hpw
  rw [show MS_PER_HOUR = CREATES_PER_HOUR * DELAY_BETWEEN_CREATES_MS from by decide]
  exact separated_count_le DELAY_BETWEEN_CREATES_MS (by decide) _ hpw2 a CREATES_PER_HOUR

/-- Closed witness for the follower-phase quota bound. -/
theorem quota_discipline_follower_phase_witness :
    countInWindow
      (((runBatchProcess (fun _ _ => ApiResp.ok) "me"
        (freshBatchState ["a", "b"] 0)).requests).map Prod.snd) 0
      ≤ CREATES_PER_HOUR :=
  quota_discipline_follower_phase (fun _ _ => ApiResp.ok) "me"
    (freshBatchState ["a", "b"] 0) 0 rfl

theorem processOne_followers (oracle : String → Nat → ApiResp) (selfDid : String)
    (st : SimState) (did : String) :
    (processOne oracle selfDid st did).data.followers = st.data.followers := by
  rw [processOne_data]
  split_ifs
  · rw [markProcessed_followers]
    exact (quotaGate_data_core st).1
  · show (markProcessed (quotaGate st).data did _).followers = st.data.followers
    rw [markProcessed_followers]
    exact (quotaGate_data_core st).1

theorem processOne_processed (oracle : String → Nat → ApiResp) (selfDid : String)
    (st : SimState) (did : String) :
    (processOne oracle selfDid st did).data.processed = st.data.processed ++ [did] := by
  rw [processOne_data]
  split_ifs
  · rw [markProcessed_processed, (quotaGate_data_core st).2.1]
  · show (markProcessed (quotaGate st).data did _).processed = _
    rw [markProcessed_processed, (quotaGate_data_core st).2.1]

theorem processOne_sum (oracle : String → Nat → ApiResp) (selfDid : String)
    (st : SimState) (did : String) :
    (processOne oracle selfDid st did).data.added
        + (processOne oracle selfDid st did).data.skipped
        + (processOne oracle selfDid st did).data.failed
      = st.data.added + st.data.skipped + st.data.failed + 1 := by
  obtain ⟨_, _, ha, hs, hf⟩ := quotaGate_data_core st
  rw [processOne_data]
  split_ifs
  · rw [markProcessed_sum, ha, hs, hf]
  · show (markProcessed (quotaGate st).data did _).added
        + (markProcessed (quotaGate st).data did _).skipped
        + (markProcessed (quotaGate st).data did _).failed = _
    rw [markProcessed_sum, ha, hs, hf]

theorem processOne_tallyinv (oracle : String → Nat → ApiResp) (selfDid : String)
    (st : SimState) (did : String) (h : TallyInv st.data)
    (hmem : did ∈ st.data.followers) :
    TallyInv (processOne oracle selfDid st did).data := by
  obtain ⟨hsum, hsub⟩ := h
  constructor
  · rw [processOne_sum, processOne_processed, List.length_append, hsum]
    rfl
  · rw [processOne_processed, processOne_followers]
    intro x hx
    rcases List.mem_append.1 hx with hx | hx
    · exact hsub x hx
    · rw [List.mem_singleton] at hx
      subst hx
      exact hmem

theorem runBatchList_processed (oracle : String → Nat → ApiResp) (selfDid : String) :
    ∀ (dids : List String) (st : SimState),
      (runBatchList oracle selfDid dids st).data.processed
        = st.data.processed ++ dids := by
  intro dids
  induction dids with
  | nil => intro st; rw [runBatchList, List.append_nil]
  | cons did rest ih =>
    intro st
    rw [runBatchList, ih, processOne_processed, List.append_assoc,
      List.singleton_append]

theorem runBatchList_followers (oracle : String → Nat → ApiResp) (selfDid : String) :
    ∀ (dids : List String) (st : SimState),
      (runBatchList oracle selfDid dids st).data.followers = st.data.followers := by
  intro dids
  induction dids with
  | nil => intro st; rfl
  | cons did rest ih =>
    intro st
    rw [runBatchList, ih, processOne_followers]

theorem runBatchList_tallyinv (oracle : String → Nat → ApiResp) (selfDid : String) :
    ∀ (dids : List String) (st : SimState), TallyInv st.data →
      (∀ x ∈ dids, x ∈ st.data.followers) →
      TallyInv (runBatchList oracle selfDid dids st).data := by
  intro dids
  induction dids with
  | nil => intro st h _; exact h
  | cons did rest ih =>
    intro st h hdids
    rw [runBatchList]
    apply ih
    · exact processOne_tallyinv oracle selfDid st did h (hdids did (by simp))
    · intro x hx
      rw [processOne_followers]
      exact hdids x (by simp [hx])

/-! ### C2: counter-tally invariant -/

/-- C2 (confirmed).  The tally invariant — added + skipped + failed equals
the length of processed, and every id in processed occurs in the candidate
list — is preserved after every processed candidate: if it holds when the
loop of run_batch_process starts, it holds after any number `k` of loop
iterations, for every oracle.  (`mark_processed` appends exactly one id and
bumps exactly one counter per candidate, and all processed ids come from
`get_remaining`, a sublist of the candidates.) -/
theorem batch_tally_invariant (oracle : String → Nat → ApiResp) (selfDid : String)
    (st : SimState) (k : Nat) (h : TallyInv st.data) :
    TallyInv (runBatchList oracle selfDid ((getRemaining st.data).take k) st).data := by
  apply runBatchList_tallyinv oracle selfDid _ st h
  intro x hx
  have hx2 : x ∈ getRemaining st.data := List.take_subset k _ hx
  exact List.mem_of_mem_filter hx2

/-- Closed witness for the tally invariant at a concrete batch. -/
theorem batch_tally_invariant_witness :
    TallyInv (runBatchList (fun _ _ => ApiResp.ok) "me"
      ((getRemaining (freshBatchState ["a", "b"] 0).data).take 1)
      (freshBatchState ["a", "b"] 0)).data :=
  batch_tally_invariant (fun _ _ => ApiResp.ok) "me" (freshBatchState ["a", "b"] 0) 1
    (by
      refine ⟨rfl, ?_⟩
      intro x hx
      exact absurd hx (by simp [freshBatchState]))

theorem runBatchList_requests_from (oracle : String → Nat → ApiResp) (selfDid : String) :
    ∀ (dids : List String) (st : SimState) (p : String × Nat),
      p ∈ (runBatchList oracle selfDid dids st).requests →
      p ∈ st.requests ∨ (p.1 ∈ dids ∧ (p.1 == selfDid) = false) := by
  intro dids
  induction dids with
  | nil => intro st p hp; exact Or.inl hp
  | cons did rest ih =>
    intro st p hp
    rw [runBatchList] at hp
    rcases ih _ p hp with hp2 | hp2
    · rw [processOne_requests] at hp2
      split_ifs at hp2 with hs
      · exact Or.inl hp2
      · rcases List.mem_append.1 hp2 with h3 | h3
        · exact Or.inl h3
        · rcases List.mem_map.1 h3 with ⟨t, _, rfl⟩
          exact Or.inr ⟨by simp, by simpa using hs⟩
    · exact Or.inr ⟨by simp [hp2.1], hp2.2⟩

/-! ### C3: executor idempotence -/

/-- C3 (confirmed).  If every candidate is already in `processed` when the
executor starts, `get_remaining` is empty, the executor changes nothing —
`remaining` stays empty and no create request is issued; and in general the
executor never issues a create request for an id that is in `processed`
when the run starts (new requests can only carry ids of `get_remaining`,
which excludes every processed id). -/
theorem executor_idempotence (oracle : String → Nat → ApiResp) (selfDid : String)
    (st : SimState) :
    ((∀ x ∈ st.data.followers, x ∈ st.data.processed) →
      getRemaining (runBatchProcess oracle selfDid st).data = [] ∧
      (runBatchProcess oracle selfDid st).requests = st.requests) ∧
    (∀ p ∈ (runBatchProcess oracle selfDid st).requests,
      p ∈ st.requests ∨ ¬p.1 ∈ st.data.processed) := by
  constructor
  · intro hall
    have hrem : getRemaining st.data = [] := by
      rw [getRemaining, List.filter_eq_nil_iff]
      intro a ha
      simp [List.elem_eq_mem, hall a ha]
    rw [runBatchProcess, hrem]
    exact ⟨hrem, rfl⟩
  · intro p hp
    have hp2 : p ∈ (runBatchList oracle selfDid (getRemaining st.data) st).requests := hp
    rcases runBatchList_requests_from oracle selfDid _ st p hp2 with h | h
    · exact Or.inl h
    · right
      have hmem2 : p.1 ∈ getRemaining st.data := h.1
      rw [getRemaining] at hmem2
      obtain ⟨_, hnc⟩ := List.mem_filter.1 hmem2
      intro hmem
      simp [List.elem_eq_mem, hmem] at hnc

/-- Closed witness for the idempotence theorem at a fully processed batch. -/
theorem executor_idempotence_witness :
    getRemaining (runBatchProcess (fun _ _ => ApiResp.ok) "me"
      { data := { followers := ["a"], processed := ["a"], added := 1, skipped := 0,
                  failed := 0, hourlyCount := 1, hourStarted := 0 },
        disk := none, now := 5000, requests := [("a", 2400)] }).data = [] ∧
    (runBatchProcess (fun _ _ => ApiResp.ok) "me"
      { data := { followers := ["a"], processed := ["a"], added := 1, skipped := 0,
                  failed := 0, hourlyCount := 1, hourStarted := 0 },
        disk := none, now := 5000, requests := [("a", 2400)] }).requests
      = [("a", 2400)] :=
  (executor_idempotence (fun _ _ => ApiResp.ok) "me" _).1
    (by intro x hx; simpa using hx)

theorem processOne_skipped_mono (oracle : String → Nat → ApiResp) (selfDid : String)
    (st : SimState) (did : String) :
    st.data.skipped ≤ (processOne oracle selfDid st did).data.skipped := by
  have hq := (quotaGate_data_core st).2.2.2.1
  rw [processOne_data]
  split_ifs
  · rw [markProcessed_skipped_self, hq]
    exact Nat.le_succ _
  · show st.data.skipped ≤ (markProcessed (quotaGate st).data did _).skipped
    rw [← hq]
    exact markProcessed_skipped_mono _ _ _

theorem processOne_skipped_self (oracle : String → Nat → ApiResp) (selfDid : String)
    (st : SimState) (did : String) (h : (did == selfDid) = true) :
    (processOne oracle selfDid st did).data.skipped = st.data.skipped + 1 := by
  rw [processOne_data, if_pos h, markProcessed_skipped_self,
    (quotaGate_data_core st).2.2.2.1]

theorem runBatchList_skipped_mono (oracle : String → Nat → ApiResp) (selfDid : String) :
    ∀ (dids : List String) (st : SimState),
      st.data.skipped ≤ (runBatchList oracle selfDid dids st).data.skipped := by
  intro dids
  induction dids with
  | nil => intro st; exact le_refl _
  | cons did rest ih =>
    intro st
    rw [runBatchList]
    exact le_trans (processOne_skipped_mono oracle selfDid st did)
      (ih (processOne oracle selfDid st did))

theorem runBatchList_self_skip (oracle : String → Nat → ApiResp) (selfDid : String) :
    ∀ (dids : List String) (st : SimState), selfDid ∈ dids →
      st.data.skipped + 1 ≤ (runBatchList oracle selfDid dids st).data.skipped := by
  intro dids
  induction dids with
  | nil => intro st h; exact absurd h (List.not_mem_nil _)
  | cons did rest ih =>
    intro st hmem
    rw [runBatchList]
    by_cases h : did = selfDid
    · calc st.data.skipped + 1
          = (processOne oracle selfDid st did).data.skipped :=
            (processOne_skipped_self oracle selfDid st did (by simp [h])).symm
        _ ≤ _ := runBatchList_skipped_mono oracle selfDid rest _
    · have hrest : selfDid ∈ rest := by
        rcases List.mem_cons.1 hmem with h2 | h2
        · exact absurd h2.symm h
        · exact h2
      calc st.data.skipped + 1
          ≤ (processOne oracle selfDid st did).data.skipped + 1 :=
            Nat.add_le_add_right (processOne_skipped_mono oracle selfDid st did) 1
        _ ≤ _ := ih (processOne oracle selfDid st did) hrest

/-! ### C4: self-exclusion -/

/-- C4 counterexample.  In the interactor phase of blocklist.py, when the
candidate list is exactly the acting identity, the self id is skipped by a
bare `continue`: no create request is issued, but no outcome is recorded
either — the skipped tally stays 0, refuting the claim that processing the
own id always records the outcome Skipped counted in the skipped tally. -/
theorem self_exclusion_cex :
    (addInteractorsLoop oracleAllOk "me" 0 [⟨"me", "m"⟩]).skippedCount = 0 ∧
    (addInteractorsLoop oracleAllOk "me" 0 [⟨"me", "m"⟩]).addedCount = 0 ∧
    (addInteractorsLoop oracleAllOk "me" 0 [⟨"me", "m"⟩]).failedCount = 0 ∧
    (addInteractorsLoop oracleAllOk "me" 0 [⟨"me", "m"⟩]).requests = [] := by
  decide

/-- C4 amended.  The acting identity's own id never triggers a mutating
call on either path.  In the follower batch phase it is additionally
recorded as Skipped (appended to processed, skipped tally bumped); in the
interactor phase it is silently excluded and appears in no tally. -/
theorem self_exclusion_amended (oracle : String → Nat → ApiResp) (selfDid : String)
    (st : SimState) :
    (∀ p ∈ (runBatchProcess oracle selfDid st).requests,
      p.1 = selfDid → p ∈ st.requests) ∧
    (selfDid ∈ getRemaining st.data →
      selfDid ∈ (runBatchProcess oracle selfDid st).data.processed ∧
      st.data.skipped + 1 ≤ (runBatchProcess oracle selfDid st).data.skipped) ∧
    (∀ (oracleB : String → ApiResp) (now : Nat) (users : List Profile)
      (p : String × Nat),
      p ∈ (addInteractorsLoop oracleB selfDid now users).requests →
      ¬p.1 = selfDid) := by
  refine ⟨?_, ?_, ?_⟩
  · intro p hp hps
    rcases runBatchList_requests_from oracle selfDid _ st p hp with h | h
    · exact h
    · rw [hps] at h
      simpa using h.2
  · intro hmem
    constructor
    · show selfDid ∈ (runBatchList oracle selfDid (getRemaining st.data) st).data.processed
      rw [runBatchList_processed]
      exact List.mem_append_right _ hmem
    · exact runBatchList_self_skip oracle selfDid _ st hmem
  · intro oracleB now users p hp
    rw [addInteractorsLoop, interactorFold_requests, List.nil_append] at hp
    rcases List.mem_map.1 hp with ⟨e, he, rfl⟩
    have hne := (List.mem_filter.1 he).2
    intro hps
    rw [Bool.not_eq_true', beq_eq_false_iff_ne] at hne
    exact hne hps

/-- Closed witness: with the own id among the remaining candidates, after
the run it is in processed and the skipped tally has grown. -/
theorem self_exclusion_amended_witness :
    "me" ∈ (runBatchProcess (fun _ _ => ApiResp.ok) "me"
      (freshBatchState ["me", "a"] 0)).data.processed ∧
    (freshBatchState ["me", "a"] 0).data.skipped + 1 ≤
      (runBatchProcess (fun _ _ => ApiResp.ok) "me"
        (freshBatchState ["me", "a"] 0)).data.skipped :=
  (self_exclusion_amended (fun _ _ => ApiResp.ok) "me"
    (freshBatchState ["me", "a"] 0)).2.1 (by decide)

/-! ### C5: duplicate handling -/

theorem addToBlocklistLoop_dup (oracle : Nat → ApiResp) (msg : String)
    (retries now fuel : Nat) (h1 : oracle retries = ApiResp.err msg)
    (hdup : isDuplicateError msg = true) :
    addToBlocklistLoop oracle retries now (fuel + 1) = ("skipped", now, [now]) := by
  simp only [addToBlocklistLoop, h1, hdup, if_true]

/-- C5 (confirmed).  A duplicate-record response — an error whose message
contains the text "duplicate record" — makes the first attempt of
`add_to_blocklist` return "skipped" immediately: no retry is made (the one
issued request is the whole request list), the outcome is not "failed", and
the loop classification of blocklist.py likewise bumps the skipped counter
and not the failed counter; in both loops processing then continues with
the next candidate (the fold equation in the last conjunct). -/
theorem duplicate_response_skipped (oracle : Nat → ApiResp) (msg : String) (now : Nat)
    (h1 : oracle 0 = ApiResp.err msg)
    (h2 : containsSub msg.toList "duplicate record".toList = true) :
    (addToBlocklist oracle now).1 = "skipped" ∧
    (addToBlocklist oracle now).2.2 = [now] ∧
    (∀ (oracleB : String → ApiResp) (selfDid : String) (stI : InterState)
      (e : String × Profile) (rest : List (String × Profile)),
      (e.1 == selfDid) = false → oracleB e.1 = ApiResp.err msg →
      (interactorStep oracleB selfDid now stI e).skippedCount = stI.skippedCount + 1 ∧
      (interactorStep oracleB selfDid now stI e).failedCount = stI.failedCount ∧
      (e :: rest).foldl (interactorStep oracleB selfDid now) stI
        = rest.foldl (interactorStep oracleB selfDid now)
            (interactorStep oracleB selfDid now stI e)) := by
  have hdup : isDuplicateError msg = true := isDuplicateError_of_sub msg h2
  have key : addToBlocklist oracle now = ("skipped", now, [now]) :=
    addToBlocklistLoop_dup oracle msg 0 now 4 h1 hdup
  refine ⟨by rw [key], by rw [key], ?_⟩
  intro oracleB selfDid stI e rest hne horr
  have hstep : interactorStep oracleB selfDid now stI e =
      { stI with
        requests := stI.requests ++ [(e.1, now)],
        skippedCount := stI.skippedCount + 1 } := by
    rw [interactorStep, if_neg (by simp [hne]), horr]
    dsimp only
    rw [if_pos h2]
  refine ⟨by rw [hstep], by rw [hstep], List.foldl_cons _ _⟩

/-- Closed witness for the duplicate-handling theorem. -/
theorem duplicate_response_skipped_witness :
    (addToBlocklist (fun _ => ApiResp.err "duplicate record: conflict") 7).1
        = "skipped" ∧
    (addToBlocklist (fun _ => ApiResp.err "duplicate record: conflict") 7).2.2
        = [7] ∧
    (interactorStep (fun _ => ApiResp.err "duplicate record: conflict") "me" 7
        ⟨0, 0, 0, []⟩ ("a", ⟨"a", "h"⟩)).skippedCount = 0 + 1 ∧
    (interactorStep (fun _ => ApiResp.err "duplicate record: conflict") "me" 7
        ⟨0, 0, 0, []⟩ ("a", ⟨"a", "h"⟩)).failedCount = 0 := by
  have h := duplicate_response_skipped
    (fun _ => ApiResp.err "duplicate record: conflict") "duplicate record: conflict" 7
    rfl (by decide)
  have h3 := h.2.2 (fun _ => ApiResp.err "duplicate record: conflict") "me"
    ⟨0, 0, 0, []⟩ ("a", ⟨"a", "h"⟩) [] (by decide) rfl
  exact ⟨h.1, h.2.1, h3.1, h3.2.1⟩

/-! ### C7: cancellation -/

/-- C7 counterexample.  The KeyboardInterrupt handler of run_batch_process
saves and then calls `sys.exit(0)`: the termination status of an
interrupted run is 0, contradicting the claimed "non-zero-but-intentional
termination status". -/
theorem cancellation_cex :
    (runBatchInterrupted (fun _ _ => ApiResp.ok) "me" 1
      (freshBatchState ["a", "b"] 0)).2 = 0 := rfl

/-- C7 amended.  An interrupt after `k` processed candidates makes the
handler persist the state as it stands (the on-disk copy equals the
in-memory data, so no recorded outcome is lost), the process exits with the
intentional status 0 (not non-zero), and — provided the interrupt strikes
before the last remaining candidate and the remaining list has no duplicate
ids — `remaining` is still non-empty for a future resume. -/
theorem cancellation_amended (oracle : String → Nat → ApiResp) (selfDid : String)
    (st : SimState) (k : Nat)
    (h1 : k < (getRemaining st.data).length)
    (h2 : (getRemaining st.data).Nodup) :
    (runBatchInterrupted oracle selfDid k st).1.disk
        = some (runBatchInterrupted oracle selfDid k st).1.data ∧
    (runBatchInterrupted oracle selfDid k st).2 = 0 ∧
    getRemaining (runBatchInterrupted oracle selfDid k st).1.data ≠ [] := by
  refine ⟨rfl, rfl, ?_⟩
  have hdropne : (getRemaining st.data).drop k ≠ [] := by
    intro hnil
    rw [List.drop_eq_nil_iff] at hnil
    omega
  obtain ⟨x, hx⟩ := List.exists_mem_of_ne_nil _ hdropne
  have hxrem : x ∈ getRemaining st.data :=
    (List.drop_sublist k (getRemaining st.data)).mem hx
  obtain ⟨hxf, hxnc⟩ := List.mem_filter.1 hxrem
  have hdisj : List.Disjoint ((getRemaining st.data).take k)
      ((getRemaining st.data).drop k) := by
    apply List.disjoint_of_nodup_append
    rw [List.take_append_drop]
    exact h2
  have hxt : ¬x ∈ (getRemaining st.data).take k := fun hmm => hdisj hmm hx
  have hxp : ¬x ∈ st.data.processed := by
    intro hmm
    simp [List.elem_eq_mem, hmm] at hxnc
  apply List.ne_nil_of_mem (a := x)
  rw [getRemaining]
  apply List.mem_filter.2
  constructor
  · show x ∈ (runBatchList oracle selfDid ((getRemaining st.data).take k) st).data.followers
    rw [runBatchList_followers]
    exact hxf
  · show (!(runBatchList oracle selfDid
      ((getRemaining st.data).take k) st).data.processed.contains x) = true
    rw [runBatchList_processed]
    simp only [List.elem_eq_mem, List.mem_append, Bool.not_eq_true', decide_eq_false_iff_not]
    intro hmm
    rcases hmm with hmm | hmm
    · exact hxp hmm
    · exact hxt hmm

/-- Closed witness for the amended cancellation theorem. -/
theorem cancellation_amended_witness :
    (runBatchInterrupted (fun _ _ => ApiResp.ok) "me" 1
        (freshBatchState ["a", "b"] 0)).1.disk
      = some (runBatchInterrupted (fun _ _ => ApiResp.ok) "me" 1
        (freshBatchState ["a", "b"] 0)).1.data ∧
    (runBatchInterrupted (fun _ _ => ApiResp.ok) "me" 1
        (freshBatchState ["a", "b"] 0)).2 = 0 ∧
    getRemaining (runBatchInterrupted (fun _ _ => ApiResp.ok) "me" 1
        (freshBatchState ["a", "b"] 0)).1.data ≠ [] :=
  cancellation_amended (fun _ _ => ApiResp.ok) "me" (freshBatchState ["a", "b"] 0) 1
    (by decide) (by decide)

/-! ### C8: deduplicated candidates -/

/-- C8 counterexample.  `fetch_all_followers` performs no deduplication: if
the upstream pagination returns the same did on two successive pages (as
`twoPageDupOracle` does), the enumerated candidate list contains that did
twice, refuting the claim that candidates are duplicate-free on both
enumeration paths. -/
theorem dedup_candidates_cex :
    ¬((fetchAllFollowers twoPageDupOracle 10).map Profile.did).Nodup := by
  decide

/-- C8 amended.  Only the interactor path deduplicates: the candidate dict
of blocklist.py has pairwise-distinct subject-ids for every input, whereas
the follower path of block_followers.py returns the upstream pages
concatenated verbatim, duplicates included (second conjunct: the concrete
two-page overlap is preserved as two entries). -/
theorem dedup_candidates_amended :
    (∀ users : List Profile, ((buildInteractors users).map Prod.fst).Nodup) ∧
    fetchAllFollowers twoPageDupOracle 10 = [⟨"a", "h1"⟩, ⟨"a", "h2"⟩] := by
  exact ⟨buildInteractors_keys_nodup, by decide⟩

/-! ### C10: interactor dedup label choice -/

/-- C10 counterexample.  A did that both liked and reposted: the dict
comprehension keeps the key's first position but the *last* assigned
profile, so the surviving display label is the one of the second
occurrence, "h2", not the first-seen "h1" the claim requires. -/
theorem interactor_label_cex :
    buildInteractors [⟨"u", "h1"⟩, ⟨"u", "h2"⟩]
      = [("u", ⟨"u", "h2"⟩)] := by
  decide

/-- C10 amended.  The interactor set contains each subject-id exactly once,
at the position of its first occurrence in the likers-then-reposters
sequence (keys equal `firstSeenKeys`), but the retained profile — hence the
display label — is the one of the *last* occurrence (Python dict update
semantics: later assignment overwrites the value, keeps the position). -/
theorem interactor_first_position_last_label (users : List Profile) :
    (buildInteractors users).map Prod.fst = firstSeenKeys (users.map Profile.did) ∧
    ∀ e ∈ buildInteractors users,
      (users.filter (fun x => x.did == e.1)).getLast? = some e.2 :=
  ⟨buildInteractors_keys_eq users, buildInteractors_last_label users⟩

/-- Closed witness for the amended dedup-semantics theorem, at the
two-occurrence input of the counterexample. -/
theorem interactor_first_position_last_label_witness :
    (buildInteractors [⟨"u", "h1"⟩, ⟨"u", "h2"⟩]).map Prod.fst
        = firstSeenKeys ([⟨"u", "h1"⟩, ⟨"u", "h2"⟩].map Profile.did) ∧
    (([⟨"u", "h1"⟩, ⟨"u", "h2"⟩] : List Profile).filter
        (fun x => x.did == ("u", (⟨"u", "h2"⟩ : Profile)).1)).getLast?
      = some ("u", (⟨"u", "h2"⟩ : Profile)).2 :=
  ⟨(interactor_first_position_last_label [⟨"u", "h1"⟩, ⟨"u", "h2"⟩]).1,
    (interactor_first_position_last_label [⟨"u", "h1"⟩, ⟨"u", "h2"⟩]).2
      ("u", ⟨"u", "h2"⟩) (by decide)⟩
